import Mathlib

/-!
Shallow embedding of the Sozi camera core
(`src/js/sozi.player.Camera.js` and the near-duplicate
`sozi.display` variant): the `CameraState` value type with its
`setAngle` / `setAtState` / `interpolate` operations, and the
`Camera` wrapper with `scale`, `rotate`, `zoom`, `drag`, `update`.

Numbers are modelled as real numbers.  JavaScript's `%` operator is a
truncating remainder (the result takes the sign of the dividend), which
we model as `jsRem`.  The external path-sampling capability
(`getTotalLength` / `getPointAtLength`) is modelled as a `PathSampler`
record.  `update` only writes SVG attributes (the renderer sink) and
mutates no numeric field, so it is the identity on the modelled state;
the on-screen frame size it computes is exposed as `frameWidth` /
`frameHeight`.
-/

/-- Truncation towards zero of a real number, as JavaScript division
truncates when computing the `%` remainder. -/
noncomputable def rtrunc (x : ℝ) : ℤ :=
  if 0 ≤ x then ⌊x⌋ else ⌈x⌉

/-- JavaScript's `%` operator on reals: `x % m = x - m * trunc (x / m)`,
whose result has the sign of the dividend `x`. -/
noncomputable def jsRem (x m : ℝ) : ℝ :=
  x - m * rtrunc (x / m)

/-- The camera state: frame center, frame size, rotation angle in
degrees, and the clipping flag.  Field order follows the source
(`init` in sozi.player.Camera.js). -/
@[ext]
structure CameraState where
  cx : ℝ
  cy : ℝ
  width : ℝ
  height : ℝ
  angle : ℝ
  clipped : Bool

/-- `setAngle` from the source:
`this.angle = (angle + 180) % 360 - 180;` with JavaScript `%`. -/
noncomputable def CameraState.setAngle (self : CameraState) (angle : ℝ) : CameraState :=
  { self with angle := jsRem (angle + 180) 360 - 180 }

/-- `setAtState`: field-wise copy of cx, cy, width, height, angle, clipped. -/
def CameraState.setAtState (self state : CameraState) : CameraState :=
  { self with
    cx := state.cx
    cy := state.cy
    width := state.width
    height := state.height
    angle := state.angle
    clipped := state.clipped }

/-- The external path-sampling capability used by `interpolate`:
`getTotalLength` and `getPointAtLength`. -/
structure PathSampler where
  totalLength : ℝ
  pointAt : ℝ → ℝ × ℝ

/-- The inner helper `linear` (named `inter` in the sozi.display copy):
`final * progress + initial * remaining` with `remaining = 1 - progress`. -/
def linear (progress initial final : ℝ) : ℝ :=
  final * progress + initial * (1 - progress)

/-- The apex value `um` of the zoom parabola, as computed inside
`quadratic`: `max(u0,u1) * (1 + relativeZoom)` when `relativeZoom > 0`,
else `min(u0,u1) * (1 - relativeZoom)`. -/
noncomputable def apexValue (relativeZoom u0 u1 : ℝ) : ℝ :=
  if relativeZoom > 0 then max u0 u1 * (1 + relativeZoom)
  else min u0 u1 * (1 - relativeZoom)

/-- The apex time `tm = r / (1 + r)` with `r = sqrt(du0 / du1)`, as
computed inside `quadratic`. -/
noncomputable def apexTime (relativeZoom u0 u1 : ℝ) : ℝ :=
  let um := apexValue relativeZoom u0 u1
  let r := Real.sqrt ((u0 - um) / (u1 - um))
  r / (1 + r)

/-- The inner helper `quadratic` (named `parabola` in the sozi.display
copy): evaluates `k * dt * dt + um` with `um` the apex value,
`tm = r/(1+r)` for `r = sqrt(du0/du1)`, `k = du0 / tm / tm`,
`dt = progress - tm`. -/
noncomputable def quadratic (relativeZoom progress u0 u1 : ℝ) : ℝ :=
  let um := apexValue relativeZoom u0 u1
  let du0 := u0 - um
  let tm := apexTime relativeZoom u0 u1
  let k := du0 / tm / tm
  let dt := progress - tm
  k * dt * dt + um

/-- `interpolate` from the source.  Width and height follow `quadratic`
when `relativeZoom` is truthy (non-zero) and `linear` otherwise; the
center follows the path sampler when one is supplied, else is linear;
the angle takes the branch of smallest angular distance.  Only cx, cy,
width, height and angle are written. -/
noncomputable def CameraState.interpolate (self initialState finalState : CameraState)
    (progress relativeZoom : ℝ) (svgPath : Option PathSampler) (reversePath : Bool) :
    CameraState :=
  let remaining := 1 - progress
  let width :=
    if relativeZoom ≠ 0 then quadratic relativeZoom progress initialState.width finalState.width
    else linear progress initialState.width finalState.width
  let height :=
    if relativeZoom ≠ 0 then quadratic relativeZoom progress initialState.height finalState.height
    else linear progress initialState.height finalState.height
  let center :=
    match svgPath with
    | some p =>
      let pathLength := p.totalLength
      let startPoint := p.pointAt (if reversePath then pathLength else 0)
      let endPoint := p.pointAt (if reversePath then 0 else pathLength)
      let currentPoint := p.pointAt (pathLength * (if reversePath then remaining else progress))
      (currentPoint.1 + linear progress (initialState.cx - startPoint.1) (finalState.cx - endPoint.1),
       currentPoint.2 + linear progress (initialState.cy - startPoint.2) (finalState.cy - endPoint.2))
    | none =>
      (linear progress initialState.cx finalState.cx,
       linear progress initialState.cy finalState.cy)
  let angle :=
    if finalState.angle - initialState.angle > 180 then
      linear progress initialState.angle (finalState.angle - 360)
    else if finalState.angle - initialState.angle < -180 then
      linear progress (initialState.angle - 360) finalState.angle
    else
      linear progress initialState.angle finalState.angle
  { self with
    cx := center.1
    cy := center.2
    width := width
    height := height
    angle := angle }

/-- The viewport: pixel dimensions, read-only to this core. -/
structure Viewport where
  width : ℝ
  height : ℝ

/-- The camera: a camera state bound to a viewport.  The renderer-side
handles (clip rectangle, transform groups) carry no numeric state and
are omitted. -/
structure Camera extends CameraState where
  viewport : Viewport

/-- Derived `scale` getter:
`min(viewport.width / width, viewport.height / height)`. -/
noncomputable def Camera.scale (c : Camera) : ℝ :=
  min (c.viewport.width / c.width) (c.viewport.height / c.height)

/-- `update` recomputes the SVG clip rectangle and transform attributes
from the current fields; it mutates no modelled field, so on the state
it is the identity. -/
def Camera.update (c : Camera) : Camera := c

/-- The on-screen frame width computed by `update`: `width * scale`. -/
noncomputable def Camera.frameWidth (c : Camera) : ℝ := c.width * c.scale

/-- The on-screen frame height computed by `update`: `height * scale`. -/
noncomputable def Camera.frameHeight (c : Camera) : ℝ := c.height * c.scale

/-- `setAngle` lifted to the camera (inherited from `CameraState` in the
source). -/
noncomputable def Camera.setAngle (c : Camera) (angle : ℝ) : Camera :=
  { c with toCameraState := c.toCameraState.setAngle angle }

/-- `Camera.setAtState`: copies the fields then calls `update`. -/
def Camera.setAtState (c : Camera) (state : CameraState) : Camera :=
  ({ c with toCameraState := c.toCameraState.setAtState state }).update

/-- `rotate`: `this.setAngle(this.angle + angle).update()`. -/
noncomputable def Camera.rotate (c : Camera) (angle : ℝ) : Camera :=
  (c.setAngle (c.angle + angle)).update

/-- `drag`: converts a screen-pixel displacement to scene coordinates
through the inverse rotation and the scale, clears `clipped`, then
calls `update`. -/
noncomputable def Camera.drag (c : Camera) (deltaX deltaY : ℝ) : Camera :=
  let scale := c.scale
  let angleRad := c.angle * Real.pi / 180
  let si := Real.sin angleRad
  let co := Real.cos angleRad
  ({ c with
     toCameraState :=
       { c.toCameraState with
         clipped := false
         cx := c.cx - (deltaX * co - deltaY * si) / scale
         cy := c.cy - (deltaX * si + deltaY * co) / scale } }).update

/-- `zoom`: divides width and height by `factor`, then drags so the
pivot pixel stays fixed. -/
noncomputable def Camera.zoom (c : Camera) (factor x y : ℝ) : Camera :=
  let c1 := { c with
              toCameraState :=
                { c.toCameraState with
                  width := c.width / factor
                  height := c.height / factor } }
  c1.drag ((1 - factor) * (x - c.viewport.width / 2))
          ((1 - factor) * (y - c.viewport.height / 2))

/-! ### Evaluation lemmas -/

/-- `quadratic` written through `apexValue` and `apexTime`. -/
lemma quadratic_eq (z t u0 u1 : ℝ) :
    quadratic z t u0 u1 =
      (u0 - apexValue z u0 u1) / apexTime z u0 u1 / apexTime z u0 u1 *
        (t - apexTime z u0 u1) * (t - apexTime z u0 u1) + apexValue z u0 u1 := rfl

/-- `apexTime` unfolded. -/
lemma apexTime_eq (z u0 u1 : ℝ) :
    apexTime z u0 u1 =
      Real.sqrt ((u0 - apexValue z u0 u1) / (u1 - apexValue z u0 u1)) /
        (1 + Real.sqrt ((u0 - apexValue z u0 u1) / (u1 - apexValue z u0 u1))) := rfl

lemma linear_zero (i f : ℝ) : linear 0 i f = i := by simp [linear]

lemma linear_one (i f : ℝ) : linear 1 i f = f := by simp [linear]

/-- `interpolate` with `relativeZoom = 0` and no path, field by field. -/
lemma interpolate_simple (self A B : CameraState) (t : ℝ) :
    self.interpolate A B t 0 none false =
      { self with
        cx := linear t A.cx B.cx
        cy := linear t A.cy B.cy
        width := linear t A.width B.width
        height := linear t A.height B.height
        angle :=
          if B.angle - A.angle > 180 then linear t A.angle (B.angle - 360)
          else if B.angle - A.angle < -180 then linear t (A.angle - 360) B.angle
          else linear t A.angle B.angle } := by
  unfold CameraState.interpolate
  norm_num

/-- The center written by `interpolate` in the path branch. -/
lemma interpolate_path_center (self A B : CameraState) (t z : ℝ) (p : PathSampler)
    (rev : Bool) :
    (self.interpolate A B t z (some p) rev).cx =
      (p.pointAt (p.totalLength * (if rev then 1 - t else t))).1 +
        linear t (A.cx - (p.pointAt (if rev then p.totalLength else 0)).1)
                 (B.cx - (p.pointAt (if rev then 0 else p.totalLength)).1) ∧
    (self.interpolate A B t z (some p) rev).cy =
      (p.pointAt (p.totalLength * (if rev then 1 - t else t))).2 +
        linear t (A.cy - (p.pointAt (if rev then p.totalLength else 0)).2)
                 (B.cy - (p.pointAt (if rev then 0 else p.totalLength)).2) := by
  constructor <;> rfl

/-- The angle written by `interpolate` does not depend on the zoom or path
arguments. -/
lemma interpolate_angle (self A B : CameraState) (t z : ℝ) (p : Option PathSampler)
    (rev : Bool) :
    (self.interpolate A B t z p rev).angle =
      if B.angle - A.angle > 180 then linear t A.angle (B.angle - 360)
      else if B.angle - A.angle < -180 then linear t (A.angle - 360) B.angle
      else linear t A.angle B.angle := by
  cases p <;> rfl

/-! ### Concrete states and cameras used as test inputs -/

def testState : CameraState := ⟨0, 0, 1, 1, 0, false⟩

/-- Scenario-2 state with angle 170. -/
def wrapInitial : CameraState := ⟨0, 0, 1, 1, 170, false⟩

/-- Scenario-2 state with angle -170. -/
def wrapFinal : CameraState := ⟨0, 0, 1, 1, -170, false⟩

/-- Scenario-1 initial state. -/
def scn1Initial : CameraState := ⟨100, 50, 200, 100, 0, false⟩

/-- Scenario-1 final state. -/
def scn1Final : CameraState := ⟨300, 150, 100, 50, 90, false⟩

def testCamera : Camera := ⟨⟨0, 0, 100, 100, 0, false⟩, ⟨800, 600⟩⟩

/-- A camera whose frame has exactly the viewport's aspect ratio. -/
def fitCamera : Camera := ⟨⟨0, 0, 2, 1, 0, false⟩, ⟨4, 2⟩⟩

/-! ### Claim theorems -/

/-- C10: `interpolate` never writes the `clipped` flag: for every pair of
input states, progress, relative zoom, path and direction, the result's
`clipped` equals `self`'s. -/
theorem interpolate_preserves_clipped (self A B : CameraState) (t z : ℝ)
    (p : Option PathSampler) (rev : Bool) :
    (self.interpolate A B t z p rev).clipped = self.clipped := by
  cases p <;> rfl

/-- C9: concrete scenario 1: interpolating from
`{cx:100, cy:50, width:200, height:100, angle:0}` to
`{cx:300, cy:150, width:100, height:50, angle:90}` with
`relativeZoom = 0`, no path, at `progress = 1/2` yields
`{cx:200, cy:100, width:150, height:75, angle:45}`. -/
theorem interpolate_scenario1 :
    (scn1Initial.interpolate scn1Initial scn1Final (1/2) 0 none false).cx = 200 ∧
    (scn1Initial.interpolate scn1Initial scn1Final (1/2) 0 none false).cy = 100 ∧
    (scn1Initial.interpolate scn1Initial scn1Final (1/2) 0 none false).width = 150 ∧
    (scn1Initial.interpolate scn1Initial scn1Final (1/2) 0 none false).height = 75 ∧
    (scn1Initial.interpolate scn1Initial scn1Final (1/2) 0 none false).angle = 45 := by
  rw [interpolate_simple]
  norm_num [scn1Initial, scn1Final, linear]

/-- C1: the code uses JavaScript's truncating `%`, not a mathematical
modulo: `setAngle(-200)` stores `-200`, which lies outside `[-180, 180)`
and differs from `setAngle(-200 + 360) = setAngle(160) = 160`, refuting
both the claimed range and the claimed 360-periodicity (and the
source's own comment that the angle is normalized to [-180; 180]). -/
theorem setAngle_truncating_remainder :
    (testState.setAngle (-200)).angle = -200 ∧
    (testState.setAngle (-200 + 360)).angle = 160 ∧
    (testState.setAngle (-200)).angle < -180 := by
  have hc : ⌈((-200 : ℝ) + 180) / 360⌉ = 0 := by
    rw [Int.ceil_eq_zero_iff, Set.mem_Ioc]
    norm_num
  have hf : ⌊((-200 : ℝ) + 360 + 180) / 360⌋ = 0 := by
    rw [Int.floor_eq_zero_iff, Set.mem_Ico]
    norm_num
  have h1 : ¬ (0 : ℝ) ≤ ((-200 : ℝ) + 180) / 360 := by norm_num
  have h2 : (0 : ℝ) ≤ ((-200 : ℝ) + 360 + 180) / 360 := by norm_num
  refine ⟨?_, ?_, ?_⟩ <;>
    simp only [testState, CameraState.setAngle, jsRem, rtrunc, if_neg h1, if_pos h2, hc, hf] <;>
    norm_num

/-- C7: for a camera with non-zero scale, `drag(0,0)` keeps `cx` and
`cy` and clears `clipped`; and `drag` never changes `width`, `height`
or `angle`. -/
theorem drag_zero_and_frame (c : Camera) (h : c.scale ≠ 0) :
    (c.drag 0 0).cx = c.cx ∧ (c.drag 0 0).cy = c.cy ∧
    (c.drag 0 0).clipped = false ∧
    ∀ dx dy, (c.drag dx dy).width = c.width ∧ (c.drag dx dy).height = c.height ∧
      (c.drag dx dy).angle = c.angle := by
  refine ⟨?_, ?_, rfl, fun dx dy => ⟨rfl, rfl, rfl⟩⟩ <;>
    simp [Camera.drag, Camera.update]

/-- C7 witness at `testCamera`, whose scale is `min 8 6 = 6 ≠ 0`. -/
theorem drag_zero_and_frame_witness :
    (testCamera.drag 0 0).cx = testCamera.cx ∧
    (testCamera.drag 0 0).cy = testCamera.cy ∧
    (testCamera.drag 0 0).clipped = false ∧
    ((testCamera.drag 3 4).width = testCamera.width ∧
      (testCamera.drag 3 4).height = testCamera.height ∧
      (testCamera.drag 3 4).angle = testCamera.angle) := by
  obtain ⟨h1, h2, h3, h4⟩ :=
    drag_zero_and_frame testCamera (by norm_num [Camera.scale, testCamera])
  exact ⟨h1, h2, h3, h4 3 4⟩

/-- C8: the derived scale is `min(viewport.width/width,
viewport.height/height)`, and when both ratios agree the on-screen
frame size equals the viewport size exactly in both axes. -/
theorem scale_fit (c : Camera) (hw : 0 < c.width) (hh : 0 < c.height) :
    c.scale = min (c.viewport.width / c.width) (c.viewport.height / c.height) ∧
    (c.viewport.width / c.width = c.viewport.height / c.height →
      c.frameWidth = c.viewport.width ∧ c.frameHeight = c.viewport.height) := by
  refine ⟨rfl, fun hq => ?_⟩
  have hs : c.scale = c.viewport.width / c.width := by
    rw [Camera.scale, hq, min_self, ← hq]
  constructor
  · rw [Camera.frameWidth, hs, mul_div_cancel₀ _ hw.ne']
  · rw [Camera.frameHeight, hs, hq, mul_div_cancel₀ _ hh.ne']

/-- C8 witness at `fitCamera`, where both ratios equal 2. -/
theorem scale_fit_witness :
    fitCamera.scale =
      min (fitCamera.viewport.width / fitCamera.width)
        (fitCamera.viewport.height / fitCamera.height) ∧
    fitCamera.frameWidth = fitCamera.viewport.width ∧
    fitCamera.frameHeight = fitCamera.viewport.height := by
  obtain ⟨h1, h2⟩ := scale_fit fitCamera (by norm_num [fitCamera]) (by norm_num [fitCamera])
  exact ⟨h1, h2 (by norm_num [fitCamera])⟩

/-- C2 counterexample: with `initial.angle = -170` and
`final.angle = 170` the wrap branch fires and interpolation at
progress 1 yields angle `-190`, not the final state's `170`, so
`interpolate(A, B, 1, 0)` is not equal to `B` field-wise. -/
theorem interpolate_one_ne_final :
    wrapFinal.interpolate wrapFinal wrapInitial 1 0 none false ≠ wrapInitial := by
  intro h
  have h2 := congrArg CameraState.angle h
  rw [interpolate_angle] at h2
  norm_num [wrapInitial, wrapFinal, linear] at h2

/-- C2 (amended): with `relativeZoom = 0` and no path, when the direct
angle branch applies (`|final.angle - initial.angle| ≤ 180`) and
`self`'s clipped flag agrees with both input states', `interpolate` at
progress 0 equals the initial state and at progress 1 equals the final
state, field-wise. -/
theorem interpolate_endpoints (self A B : CameraState)
    (h1 : B.angle - A.angle ≤ 180) (h2 : -180 ≤ B.angle - A.angle)
    (hcA : self.clipped = A.clipped) (hcB : A.clipped = B.clipped) :
    self.interpolate A B 0 0 none false = A ∧
    self.interpolate A B 1 0 none false = B := by
  have hb1 : ¬ (B.angle - A.angle > 180) := by linarith
  have hb2 : ¬ (B.angle - A.angle < -180) := by linarith
  constructor
  · rw [interpolate_simple]
    ext <;> simp [hb1, hb2, linear_zero, hcA]
  · rw [interpolate_simple]
    ext <;> simp [hb1, hb2, linear_one, hcA, hcB]

def wSelf : CameraState := ⟨1, 2, 3, 4, 10, false⟩

def wFinalSt : CameraState := ⟨5, 6, 7, 8, 20, false⟩

/-- C2 witness on concrete states with angle gap 10. -/
theorem interpolate_endpoints_witness :
    wSelf.interpolate wSelf wFinalSt 0 0 none false = wSelf ∧
    wSelf.interpolate wSelf wFinalSt 1 0 none false = wFinalSt :=
  interpolate_endpoints wSelf wSelf wFinalSt (by norm_num [wSelf, wFinalSt])
    (by norm_num [wSelf, wFinalSt]) rfl rfl

/-- C4: for states whose angles satisfy the normalization invariant
`[-180, 180)`, the angular change between the interpolated values at
progress 0 and progress 1 has magnitude at most 180; and in the
concrete wrap scenario (`initial.angle = 170`, `final.angle = -170`)
the angle at progress 1/2 is exactly `-180`. -/
theorem interpolate_angle_short_path (self A B : CameraState)
    (hA1 : -180 ≤ A.angle) (hA2 : A.angle < 180)
    (hB1 : -180 ≤ B.angle) (hB2 : B.angle < 180) :
    |(self.interpolate A B 1 0 none false).angle -
        (self.interpolate A B 0 0 none false).angle| ≤ 180 ∧
    (wrapInitial.interpolate wrapInitial wrapFinal (1/2) 0 none false).angle = -180 := by
  constructor
  · rw [interpolate_angle, interpolate_angle]
    split_ifs with hb1 hb2 <;>
      rw [linear_one, linear_zero, abs_le] <;> constructor <;> linarith
  · rw [interpolate_angle]
    norm_num [wrapInitial, wrapFinal, linear]

/-- C4 witness: equal zero angles for the general part, and the
concrete wrap scenario. -/
theorem interpolate_angle_short_path_witness :
    |(testState.interpolate testState testState 1 0 none false).angle -
        (testState.interpolate testState testState 0 0 none false).angle| ≤ 180 ∧
    (wrapInitial.interpolate wrapInitial wrapFinal (1/2) 0 none false).angle = -180 :=
  interpolate_angle_short_path testState testState testState (by norm_num [testState])
    (by norm_num [testState]) (by norm_num [testState]) (by norm_num [testState])

/-- C5: with a path supplied, the interpolated center is the sampled
current point plus the linear interpolation of the endpoint offsets,
and consequently the center is exactly the initial state's center at
progress 0 and exactly the final state's center at progress 1, for
every sampler, zoom and direction. -/
theorem interpolate_path_exact (self A B : CameraState) (t z : ℝ) (p : PathSampler)
    (rev : Bool) :
    ((self.interpolate A B t z (some p) rev).cx =
      (p.pointAt (p.totalLength * (if rev then 1 - t else t))).1 +
        linear t (A.cx - (p.pointAt (if rev then p.totalLength else 0)).1)
                 (B.cx - (p.pointAt (if rev then 0 else p.totalLength)).1)) ∧
    ((self.interpolate A B t z (some p) rev).cy =
      (p.pointAt (p.totalLength * (if rev then 1 - t else t))).2 +
        linear t (A.cy - (p.pointAt (if rev then p.totalLength else 0)).2)
                 (B.cy - (p.pointAt (if rev then 0 else p.totalLength)).2)) ∧
    (self.interpolate A B 0 z (some p) rev).cx = A.cx ∧
    (self.interpolate A B 0 z (some p) rev).cy = A.cy ∧
    (self.interpolate A B 1 z (some p) rev).cx = B.cx ∧
    (self.interpolate A B 1 z (some p) rev).cy = B.cy := by
  refine ⟨(interpolate_path_center self A B t z p rev).1,
          (interpolate_path_center self A B t z p rev).2, ?_, ?_, ?_, ?_⟩
  · have h := (interpolate_path_center self A B 0 z p rev).1
    cases rev <;> simp [linear] at h <;> rw [h]
  · have h := (interpolate_path_center self A B 0 z p rev).2
    cases rev <;> simp [linear] at h <;> rw [h]
  · have h := (interpolate_path_center self A B 1 z p rev).1
    cases rev <;> simp [linear] at h <;> rw [h]
  · have h := (interpolate_path_center self A B 1 z p rev).2
    cases rev <;> simp [linear] at h <;> rw [h]

/-! ### Parabola lemmas -/

lemma apexTime_nonneg (z u0 u1 : ℝ) : 0 ≤ apexTime z u0 u1 := by
  rw [apexTime_eq]
  have h := Real.sqrt_nonneg ((u0 - apexValue z u0 u1) / (u1 - apexValue z u0 u1))
  exact div_nonneg h (by linarith)

lemma quadratic_le_of_nonpos (z u0 u1 t : ℝ) (h : u0 - apexValue z u0 u1 ≤ 0) :
    quadratic z t u0 u1 ≤ apexValue z u0 u1 := by
  rw [quadratic_eq]
  have htm := apexTime_nonneg z u0 u1
  have hk : (u0 - apexValue z u0 u1) / apexTime z u0 u1 / apexTime z u0 u1 ≤ 0 :=
    div_nonpos_iff.mpr (Or.inr ⟨div_nonpos_iff.mpr (Or.inr ⟨h, htm⟩), htm⟩)
  nlinarith [mul_self_nonneg (t - apexTime z u0 u1)]

lemma quadratic_ge_of_nonneg (z u0 u1 t : ℝ) (h : 0 ≤ u0 - apexValue z u0 u1) :
    apexValue z u0 u1 ≤ quadratic z t u0 u1 := by
  rw [quadratic_eq]
  have htm := apexTime_nonneg z u0 u1
  have hk : 0 ≤ (u0 - apexValue z u0 u1) / apexTime z u0 u1 / apexTime z u0 u1 :=
    div_nonneg (div_nonneg h htm) htm
  nlinarith [mul_self_nonneg (t - apexTime z u0 u1)]

lemma sqrt_ratio_pos (z u0 u1 : ℝ)
    (hs : 0 < (u0 - apexValue z u0 u1) * (u1 - apexValue z u0 u1)) :
    0 < Real.sqrt ((u0 - apexValue z u0 u1) / (u1 - apexValue z u0 u1)) := by
  apply Real.sqrt_pos.mpr
  rcases mul_pos_iff.mp hs with ⟨ha, hb⟩ | ⟨ha, hb⟩
  · exact div_pos ha hb
  · exact div_pos_iff.mpr (Or.inr ⟨ha, hb⟩)

lemma quadratic_at_zero (z u0 u1 : ℝ)
    (hs : 0 < (u0 - apexValue z u0 u1) * (u1 - apexValue z u0 u1)) :
    quadratic z 0 u0 u1 = u0 := by
  have hr := sqrt_ratio_pos z u0 u1 hs
  have htm : 0 < apexTime z u0 u1 := by
    rw [apexTime_eq]
    exact div_pos hr (by linarith)
  rw [quadratic_eq]
  field_simp
  ring

lemma quadratic_at_one (z u0 u1 : ℝ)
    (hs : 0 < (u0 - apexValue z u0 u1) * (u1 - apexValue z u0 u1)) :
    quadratic z 1 u0 u1 = u1 := by
  have hr := sqrt_ratio_pos z u0 u1 hs
  have hq : 0 < (u0 - apexValue z u0 u1) / (u1 - apexValue z u0 u1) := Real.sqrt_pos.mp hr
  have hd1 : u1 - apexValue z u0 u1 ≠ 0 := by
    intro h0
    rw [h0, mul_zero] at hs
    exact lt_irrefl 0 hs
  have hr2 : Real.sqrt ((u0 - apexValue z u0 u1) / (u1 - apexValue z u0 u1)) ^ 2
      = (u0 - apexValue z u0 u1) / (u1 - apexValue z u0 u1) := Real.sq_sqrt hq.le
  rw [quadratic_eq, apexTime_eq]
  set r := Real.sqrt ((u0 - apexValue z u0 u1) / (u1 - apexValue z u0 u1)) with hrdef
  set um := apexValue z u0 u1 with humdef
  have hkey : u0 - um = r ^ 2 * (u1 - um) := by
    rw [hr2, div_mul_cancel₀ _ hd1]
  have h1r : (1 : ℝ) + r ≠ 0 := by
    have : (0:ℝ) < 1 + r := by linarith
    exact this.ne'
  rw [hkey]
  field_simp
  ring

lemma quadratic_at_apex (z u0 u1 : ℝ) :
    quadratic z (apexTime z u0 u1) u0 u1 = apexValue z u0 u1 := by
  rw [quadratic_eq]
  ring

/-- With a truthy (non-zero) `relativeZoom`, `interpolate` writes the
`quadratic` of the endpoint widths and heights, whatever the path. -/
lemma interpolate_width_zoom (s A B : CameraState) (t z : ℝ) (p : Option PathSampler)
    (rev : Bool) (hz : z ≠ 0) :
    (s.interpolate A B t z p rev).width = quadratic z t A.width B.width ∧
    (s.interpolate A B t z p rev).height = quadratic z t A.height B.height := by
  cases p <;> constructor <;> simp [CameraState.interpolate, hz]

/-- C3: for a non-zero `relativeZoom`, `interpolate` drives width and
height through the `quadratic` parabola of the endpoint sizes; and
under the precondition that `u0 - um` and `u1 - um` share sign (`um`
the apex value, sign sharing stated as a positive product), the
parabola evaluates exactly to `u0` at progress 0, to `u1` at progress
1, and to `um` at the apex time; `um` is a global extremum: a maximum
when `u0 ≤ um`, a minimum when `um ≤ u0`. -/
theorem quadratic_spec (z u0 u1 : ℝ) (hz : z ≠ 0)
    (hs : 0 < (u0 - apexValue z u0 u1) * (u1 - apexValue z u0 u1)) :
    (∀ (s A B : CameraState) (t : ℝ) (p : Option PathSampler) (rev : Bool),
      (s.interpolate A B t z p rev).width = quadratic z t A.width B.width ∧
      (s.interpolate A B t z p rev).height = quadratic z t A.height B.height) ∧
    quadratic z 0 u0 u1 = u0 ∧ quadratic z 1 u0 u1 = u1 ∧
    quadratic z (apexTime z u0 u1) u0 u1 = apexValue z u0 u1 ∧
    (u0 - apexValue z u0 u1 ≤ 0 → ∀ t, quadratic z t u0 u1 ≤ apexValue z u0 u1) ∧
    (0 ≤ u0 - apexValue z u0 u1 → ∀ t, apexValue z u0 u1 ≤ quadratic z t u0 u1) :=
  ⟨fun s A B t p rev => interpolate_width_zoom s A B t z p rev hz,
   quadratic_at_zero z u0 u1 hs, quadratic_at_one z u0 u1 hs,
   quadratic_at_apex z u0 u1,
   fun h t => quadratic_le_of_nonpos z u0 u1 t h,
   fun h t => quadratic_ge_of_nonneg z u0 u1 t h⟩

/-- C3 witness: `u0 = 100`, `u1 = 200`, `relativeZoom = 1/5`: the apex
value is `240`, the parabola hits `100` at progress 0 and `200` at
progress 1 and its apex value at the apex time, `240` bounds it, and
`interpolate` at progress 1/2 carries the parabola value. -/
theorem quadratic_spec_witness :
    (testState.interpolate wSelf wFinalSt (1/2) (1/5) none false).width =
      quadratic (1/5) (1/2) wSelf.width wFinalSt.width ∧
    quadratic (1/5) 0 100 200 = 100 ∧
    quadratic (1/5) 1 100 200 = 200 ∧
    quadratic (1/5) (apexTime (1/5) 100 200) 100 200 = apexValue (1/5) 100 200 ∧
    apexValue (1/5) 100 200 = 240 ∧
    quadratic (1/5) (1/2) 100 200 ≤ 240 := by
  have h240 : apexValue (1/5 : ℝ) 100 200 = 240 := by
    rw [apexValue, if_pos (by norm_num : (1/5 : ℝ) > 0),
      max_eq_right (by norm_num : (100:ℝ) ≤ 200)]
    norm_num
  have hs : 0 < ((100:ℝ) - apexValue (1/5) 100 200) * (200 - apexValue (1/5) 100 200) := by
    rw [h240]
    norm_num
  obtain ⟨hlink, hq0, hq1, hqa, hle, hge⟩ :=
    quadratic_spec (1/5) 100 200 (by norm_num) hs
  refine ⟨(hlink testState wSelf wFinalSt (1/2) none false).1, hq0, hq1, hqa, h240, ?_⟩
  have h := hle (by rw [h240]; norm_num) (1/2)
  rwa [h240] at h

/-! ### Size-invariant lemmas -/

lemma min_lt_apexValue (z u0 u1 : ℝ) (hz : z ≠ 0) (h0 : 0 < u0) (h1 : 0 < u1) :
    min u0 u1 < apexValue z u0 u1 := by
  rw [apexValue]
  split_ifs with h
  · have hmax : 0 < max u0 u1 := lt_of_lt_of_le h0 (le_max_left u0 u1)
    have hlt : max u0 u1 < max u0 u1 * (1 + z) := by nlinarith
    exact lt_of_le_of_lt min_le_max hlt
  · have hzneg : z < 0 := lt_of_le_of_ne (not_lt.mp h) hz
    have hmin : 0 < min u0 u1 := lt_min h0 h1
    nlinarith

lemma apex_du_neg (z u0 u1 : ℝ) (hz : z ≠ 0) (h0 : 0 < u0) (h1 : 0 < u1)
    (hs : 0 < (u0 - apexValue z u0 u1) * (u1 - apexValue z u0 u1)) :
    u0 - apexValue z u0 u1 < 0 ∧ u1 - apexValue z u0 u1 < 0 := by
  have hmin := min_lt_apexValue z u0 u1 hz h0 h1
  rcases mul_pos_iff.mp hs with ⟨ha, hb⟩ | ⟨ha, hb⟩
  · exfalso
    have hu0 : apexValue z u0 u1 < u0 := by linarith
    have hu1 : apexValue z u0 u1 < u1 := by linarith
    have := lt_min hu0 hu1
    linarith
  · exact ⟨by linarith, by linarith⟩

lemma linear_pos (t i f : ℝ) (hi : 0 < i) (hf : 0 < f) (h0 : 0 ≤ t) (h1 : t ≤ 1) :
    0 < linear t i f := by
  rw [linear]
  rcases eq_or_lt_of_le h1 with h | h
  · rw [h]
    nlinarith
  · nlinarith [mul_nonneg hf.le h0, mul_pos hi (by linarith : (0:ℝ) < 1 - t)]

lemma quadratic_ge_min_on_unit (z u0 u1 t : ℝ) (hz : z ≠ 0) (h0 : 0 < u0) (h1 : 0 < u1)
    (hs : 0 < (u0 - apexValue z u0 u1) * (u1 - apexValue z u0 u1))
    (ht0 : 0 ≤ t) (ht1 : t ≤ 1) : min u0 u1 ≤ quadratic z t u0 u1 := by
  obtain ⟨hd0, hd1⟩ := apex_du_neg z u0 u1 hz h0 h1 hs
  have hq0 := quadratic_at_zero z u0 u1 hs
  have hq1 := quadratic_at_one z u0 u1 hs
  have htm := apexTime_nonneg z u0 u1
  have hk : (u0 - apexValue z u0 u1) / apexTime z u0 u1 / apexTime z u0 u1 ≤ 0 :=
    div_nonpos_iff.mpr (Or.inr ⟨div_nonpos_iff.mpr (Or.inr ⟨hd0.le, htm⟩), htm⟩)
  have iden : quadratic z t u0 u1 =
      (1 - t) * quadratic z 0 u0 u1 + t * quadratic z 1 u0 u1 +
        ((u0 - apexValue z u0 u1) / apexTime z u0 u1 / apexTime z u0 u1) * (t * (t - 1)) := by
    rw [quadratic_eq, quadratic_eq, quadratic_eq]
    ring
  have hprod : 0 ≤ ((u0 - apexValue z u0 u1) / apexTime z u0 u1 / apexTime z u0 u1) *
      (t * (t - 1)) := by
    have hts : t * (t - 1) ≤ 0 := by nlinarith
    nlinarith
  rw [iden, hq0, hq1]
  nlinarith [mul_nonneg (by linarith : (0:ℝ) ≤ 1 - t)
               (by linarith [min_le_left u0 u1] : (0:ℝ) ≤ u0 - min u0 u1),
             mul_nonneg ht0 (by linarith [min_le_right u0 u1] : (0:ℝ) ≤ u1 - min u0 u1)]


/-- C6 (amended): the state mutators preserve `width > 0 ∧ height > 0`
under their documented preconditions: `setAngle`, `rotate` and `drag`
never touch the size; `setAtState` copies a positive size; `zoom`
preserves positivity when its factor is positive; `interpolate` with
`relativeZoom = 0` and `progress ∈ [0,1]` stays between the two
positive endpoint sizes; and `interpolate` with `relativeZoom ≠ 0`
preserves positivity under the parabola's share-sign precondition.
No mutator rejects or clamps: `zoom` with `factor ≤ 0` violates the
invariant (see the counterexample). -/
theorem mutators_preserve_size (c : Camera) (hw : 0 < c.width) (hh : 0 < c.height) :
    (∀ a, 0 < (c.setAngle a).width ∧ 0 < (c.setAngle a).height) ∧
    (∀ a, 0 < (c.rotate a).width ∧ 0 < (c.rotate a).height) ∧
    (∀ dx dy, 0 < (c.drag dx dy).width ∧ 0 < (c.drag dx dy).height) ∧
    (∀ f x y, 0 < f → 0 < (c.zoom f x y).width ∧ 0 < (c.zoom f x y).height) ∧
    (∀ s, 0 < s.width → 0 < s.height →
      0 < (c.setAtState s).width ∧ 0 < (c.setAtState s).height) ∧
    (∀ (s A B : CameraState) (t : ℝ),
      0 < A.width → 0 < A.height → 0 < B.width → 0 < B.height → 0 ≤ t → t ≤ 1 →
      0 < (s.interpolate A B t 0 none false).width ∧
      0 < (s.interpolate A B t 0 none false).height) ∧
    (∀ (s A B : CameraState) (t z : ℝ), z ≠ 0 →
      0 < A.width → 0 < A.height → 0 < B.width → 0 < B.height →
      0 < (A.width - apexValue z A.width B.width) *
            (B.width - apexValue z A.width B.width) →
      0 < (A.height - apexValue z A.height B.height) *
            (B.height - apexValue z A.height B.height) →
      0 ≤ t → t ≤ 1 →
      0 < (s.interpolate A B t z none false).width ∧
      0 < (s.interpolate A B t z none false).height) := by
  refine ⟨fun a => ⟨hw, hh⟩, fun a => ⟨hw, hh⟩, fun dx dy => ⟨hw, hh⟩,
    fun f x y hf => ⟨?_, ?_⟩, fun s hsw hsh => ⟨hsw, hsh⟩,
    fun s A B t hAw hAh hBw hBh ht0 ht1 => ⟨?_, ?_⟩,
    fun s A B t z hz hAw hAh hBw hBh hsw hsh ht0 ht1 => ⟨?_, ?_⟩⟩
  · show 0 < c.width / f
    exact div_pos hw hf
  · show 0 < c.height / f
    exact div_pos hh hf
  · have he : (s.interpolate A B t 0 none false).width = linear t A.width B.width := by
      rw [interpolate_simple]
    rw [he]
    exact linear_pos t A.width B.width hAw hBw ht0 ht1
  · have he : (s.interpolate A B t 0 none false).height = linear t A.height B.height := by
      rw [interpolate_simple]
    rw [he]
    exact linear_pos t A.height B.height hAh hBh ht0 ht1
  · rw [(interpolate_width_zoom s A B t z none false hz).1]
    calc (0:ℝ) < min A.width B.width := lt_min hAw hBw
      _ ≤ quadratic z t A.width B.width :=
        quadratic_ge_min_on_unit z A.width B.width t hz hAw hBw hsw ht0 ht1
  · rw [(interpolate_width_zoom s A B t z none false hz).2]
    calc (0:ℝ) < min A.height B.height := lt_min hAh hBh
      _ ≤ quadratic z t A.height B.height :=
        quadratic_ge_min_on_unit z A.height B.height t hz hAh hBh hsh ht0 ht1

/-- C6 counterexample: `zoom` with factor `-1` neither rejects nor
clamps; it makes the width negative. -/
theorem zoom_negative_factor_cex : (testCamera.zoom (-1) 0 0).width < 0 := by
  show testCamera.width / (-1) < 0
  norm_num [testCamera]

/-- C6 witness at `testCamera` (width and height 100). -/
theorem mutators_preserve_size_witness :
    0 < (testCamera.zoom 2 0 0).width ∧ 0 < (testCamera.zoom 2 0 0).height :=
  (mutators_preserve_size testCamera (by norm_num [testCamera])
    (by norm_num [testCamera])).2.2.2.1 2 0 0 (by norm_num)
